import Mathlib

/-!
Verification development for the GNS3 GUI VirtualBox module
(`gns3/modules/virtualbox/__init__.py`).

The module keeps three pieces of state: a flat module-settings mapping
(`self._settings`), a template registry (`self._virtualbox_vms`, a dict
keyed by `"server:vmname"` mapping to a per-VM settings dict), and a node
registry (`self._nodes`, a list of node handles).  We embed Python dicts
as insertion-ordered association lists (`assocGet` is first-match lookup,
matching dict lookup when keys are unique, which the dict invariant
guarantees), Python values stored in settings as the `SettingValue` type,
and exceptions as `Except`.

The persisted QSettings store for the VM collection is modelled, per the
spec's external-interface section, as an ordered list of records under a
named group; a save replaces the whole list.  Methods that only raise or
return are embedded as pure functions; `node.setup(...)` is embedded as
the returned `SetupCall` value.
-/

namespace GNS3VBox

/-- A Python value as stored in the settings store: a string, a boolean,
or a non-negative integer. -/
inductive SettingValue where
  | str (s : String)
  | bool (b : Bool)
  | nat (n : Nat)
deriving DecidableEq, Repr

/-- The type tag of a setting, as used by the typed-load schema. -/
inductive SettingType where
  | str
  | bool
  | nat
deriving DecidableEq, Repr

/-- The type tag of a stored value. -/
def SettingValue.type : SettingValue → SettingType
  | .str _ => .str
  | .bool _ => .bool
  | .nat _ => .nat

/-- Python truthiness of a stored value (`bool(v)`): empty string, `False`
and `0` are falsy. -/
def SettingValue.falsy : SettingValue → Bool
  | .str s => s == ""
  | .bool b => !b
  | .nat n => n == 0

/-- Modelled from the spec: the QSettings store (an external collaborator)
returns `None` for a missing key, so raw reads yield `Option SettingValue`;
`not v` in Python is true for `None` and for falsy values. -/
def optFalsy : Option SettingValue → Bool
  | none => true
  | some v => v.falsy

/-- Modelled from the spec: string conversion used both by typed loads with
a string target type and by Python string interpolation of a stored value. -/
def SettingValue.asStr : SettingValue → String
  | .str s => s
  | .bool true => "true"
  | .bool false => "false"
  | .nat n => toString n

/-- Modelled from the spec: boolean conversion for typed loads. -/
def SettingValue.asBool : SettingValue → Bool
  | .str s => !(s == "" || s == "false" || s == "0")
  | .bool b => b
  | .nat n => !(n == 0)

/-- Modelled from the spec: integer conversion for typed loads. -/
def SettingValue.asNat : SettingValue → Nat
  | .str s => s.toNat?.getD 0
  | .bool b => if b then 1 else 0
  | .nat n => n

/-- Modelled from the spec: type coercion applied by the settings store
when a value is loaded with a declared target type
(`settings.value(name, default, type)`). -/
def convert : SettingType → SettingValue → SettingValue
  | .str, v => .str v.asStr
  | .bool, v => .bool v.asBool
  | .nat, v => .nat v.asNat

/-- Python string interpolation of a possibly-missing raw value
(`"{server}:{vmname}".format(...)`): `None` prints as `"None"`, booleans
as `"True"`/`"False"`. -/
def pyShow : Option SettingValue → String
  | none => "None"
  | some (.str s) => s
  | some (.bool true) => "True"
  | some (.bool false) => "False"
  | some (.nat n) => toString n

/-- An insertion-ordered mapping from setting names to values: the
embedding of one Python settings dict (a VM template's attributes, a
persisted VM record, a node's settings, or the module settings). -/
abbrev Record := List (String × SettingValue)

/-- First-match association lookup: Python dict lookup under the unique-key
dict invariant.  A missing key raises `KeyError` in Python; call sites in
the source only look up keys that are present, and the theorems below
restrict to such states. -/
def assocGet {α : Type} (l : List (String × α)) (name : String) : Option α :=
  match l with
  | [] => none
  | p :: t => if p.1 = name then some p.2 else assocGet t name

/-- The template registry `self._virtualbox_vms`: an insertion-ordered dict
from `"server:vmname"` keys to template attribute records. -/
abbrev Registry := List (String × Record)

/-- Registry lookup (`self._virtualbox_vms[key]` under the dict invariant). -/
def regGet (reg : Registry) (key : String) : Option Record :=
  assocGet reg key

/-- The keys of the registry, in insertion order. -/
def regKeys (reg : Registry) : List String :=
  reg.map (·.1)

/-- Modelled from the spec: `VBOX_VM_SETTINGS` from the module's missing
`settings.py` — the per-VM template schema with its default values.  The
field list follows the spec's data model (`vmname`, `server`, `linked_base`,
`default_symbol`, `hover_symbol`, `category`, further setting fields). -/
def VBOX_VM_SETTINGS : List (String × SettingValue) :=
  [("vmname", .str ""),
   ("server", .str "local"),
   ("linked_base", .bool false),
   ("adapters", .nat 1),
   ("default_symbol", .str ":/symbols/vbox_guest.normal.svg"),
   ("hover_symbol", .str ":/symbols/vbox_guest.selected.svg"),
   ("category", .nat 0)]

/-- Modelled from the spec: `VBOX_VM_SETTING_TYPES` from the missing
`settings.py` — the declared load type of each schema field, which is the
type of its default value. -/
def VBOX_VM_SETTING_TYPES (name : String) : SettingType :=
  match assocGet VBOX_VM_SETTINGS name with
  | some v => v.type
  | none => .str

/-- One persisted VM record built into a registry entry: every schema field
is read from the record with its default and declared type
(`settings.value(setting_name, default_value, VBOX_VM_SETTING_TYPES[...])`,
source lines 90–91). -/
def mkEntry (r : Record) : Record :=
  VBOX_VM_SETTINGS.map
    (fun p => (p.1, convert (VBOX_VM_SETTING_TYPES p.1) ((assocGet r p.1).getD p.2)))

/-- The `"{server}:{vmname}"` key computed from a persisted record's raw
`server` and `vmname` reads (source line 86). -/
def recordKey (r : Record) : String :=
  pyShow (assocGet r "server") ++ ":" ++ pyShow (assocGet r "vmname")

/-- One iteration of the load loop (source lines 82–91): skip the record
when its key is already present or its raw `vmname` or `server` read is
falsy, otherwise insert the schema-typed entry at the end. -/
def loadStep (reg : Registry) (r : Record) : Registry :=
  let vmname := assocGet r "vmname"
  let server := assocGet r "server"
  let key := recordKey r
  if (regGet reg key).isSome || optFalsy vmname || optFalsy server then reg
  else reg ++ [(key, mkEntry r)]

/-- `VirtualBox._loadVirtualBoxVMs` (source lines 71–94): fold the load
loop over the persisted records, starting from the empty dict the
constructor just initialised. -/
def _loadVirtualBoxVMs (records : List Record) : Registry :=
  records.foldl loadStep []

/-- `VirtualBox._saveVirtualBoxVMs` (source lines 96–115): clear the
persisted group (`settings.remove("")`) and write every registry value as
one record, so the store's previous contents are discarded entirely and
the resulting persisted list is exactly the registry's values in order. -/
def _saveVirtualBoxVMs (_prev : List Record) (reg : Registry) : List Record :=
  reg.map (·.2)

/-- `VirtualBox.setVirtualBoxVMs` (source lines 126–134): replace the
in-memory registry with a copy of the argument and save it, returning the
new registry and the new persisted store. -/
def setVirtualBoxVMs (prev : List Record) (new_virtualbox_vms : Registry) :
    Registry × List Record :=
  (new_virtualbox_vms, _saveVirtualBoxVMs prev new_virtualbox_vms)

/-- A record passes the load filter's field checks (`not vmname or not
server` is false). -/
def recordValid (r : Record) : Bool :=
  !optFalsy (assocGet r "vmname") && !optFalsy (assocGet r "server")

/-- A node's server handle: `server.host` and `server.isLocal()`. -/
structure Server where
  host : String
  isLocal : Bool
deriving DecidableEq, Repr

/-- A topology node handle as seen by this module: `node.settings()` and
`node.server()`. -/
structure NodeHandle where
  settings : Record
  server : Server
deriving DecidableEq, Repr

/-- The exceptions `setupNode` can raise (all `ModuleError`s in the
source; the message text is attached by `VBoxError.message`). -/
inductive VBoxError where
  | noTemplateAvailable (host : String)
  | selectionCancelled
  | templateAlreadyInUse
deriving DecidableEq, Repr

/-- The message string carried by each raised `ModuleError` (source lines
220, 230 and 240). -/
def VBoxError.message : VBoxError → String
  | .noTemplateAvailable host => "No VirtualBox VM on server " ++ host
  | .selectionCancelled => "Please select a VirtualBox VM"
  | .templateAlreadyInUse =>
      "Sorry a VirtualBox VM can only be used once in your topology (this will change in future versions)"

/-- Whether a template's `vmname` equals the requested node name
(`node_name == info["vmname"]`, source line 210); comparing a Python
string with a value of another type yields `False`. -/
def nameMatches (node_name : String) (info : Record) : Bool :=
  assocGet info "vmname" == some (.str node_name)

/-- The requested-name scan (source lines 207–211): `vm` starts as `None`
and is overwritten by every matching key, so it ends as the last match. -/
def byName (reg : Registry) (node_name : String) : Option String :=
  reg.foldl (fun acc p => if nameMatches node_name p.2 then some p.1 else acc) none

/-- The server filter predicate (source line 216):
`info["server"] == node.server().host or (node.server().isLocal() and
info["server"] == "local")`. -/
def serverMatches (node : NodeHandle) (info : Record) : Bool :=
  assocGet info "server" == some (.str node.server.host) ||
    (node.server.isLocal && assocGet info "server" == some (.str "local"))

/-- The keys whose template passes the server filter, in registry order
(`selected_vms`, source lines 214–217). -/
def selectedVms (reg : Registry) (node : NodeHandle) : List String :=
  (reg.filter (fun p => serverMatches node p.2)).map (·.1)

/-- The server-filtering branch of `setupNode` (source lines 213–233):
zero matches raise `NoTemplateAvailable`, several matches defer to the
modal VM chooser (`choose` returns `none` when the user cancels, and with
a non-editable item dialog any selection is one of the offered keys), one
match is taken directly. -/
def serverResolve (reg : Registry) (choose : List String → Option String)
    (node : NodeHandle) : Except VBoxError String :=
  match selectedVms reg node with
  | [] => .error (.noTemplateAvailable node.server.host)
  | [k] => .ok k
  | k1 :: k2 :: rest =>
      match choose (k1 :: k2 :: rest) with
      | some s => .ok s
      | none => .error .selectionCancelled

/-- Template resolution (source lines 207–233): try the requested-name
scan when a non-empty name was given; when the scan's result is still
falsy (`if not vm:`), fall back to server filtering. -/
def resolveVm (reg : Registry) (choose : List String → Option String)
    (node : NodeHandle) (node_name : String) : Except VBoxError String :=
  let vm0 := if node_name ≠ "" then byName reg node_name else none
  match vm0 with
  | some s => if s = "" then serverResolve reg choose node else .ok s
  | none => serverResolve reg choose node

/-- Registry entry for a resolved key (`self._virtualbox_vms[vm]`): the
resolved keys below are always present, so the `[]` default never fires
in the states the theorems quantify over. -/
def getInfo (reg : Registry) (key : String) : Record :=
  (regGet reg key).getD []

/-- The single-use conflict test for one registered node (source lines
238–239): `other_node.settings()["vmname"] == vms[vm]["vmname"] and
(vms[vm]["server"] == "local" and other_node.server().isLocal() or
vms[vm]["server"] == other_node.server().host)`. -/
def conflicts (info : Record) (other : NodeHandle) : Bool :=
  assocGet other.settings "vmname" == assocGet info "vmname" &&
    ((assocGet info "server" == some (.str "local") && other.server.isLocal) ||
      assocGet info "server" == some (.str other.server.host))

/-- The settings payload (source lines 242–245): every template field
whose name also appears in the node's settings, in template order. -/
def buildSettings (info : Record) (node : NodeHandle) : Record :=
  info.filter (fun p => (assocGet node.settings p.1).isSome)

/-- The final `node.setup(vmname, linked_clone=..., additional_settings=...)`
invocation (source line 248), recorded as a value. -/
structure SetupCall where
  vmname : SettingValue
  linked_clone : SettingValue
  additional_settings : Record
deriving DecidableEq, Repr

/-- `VirtualBox.setupNode` (source lines 197–248): resolve a template,
enforce single use when `linked_base` is falsy, and produce the
`node.setup` invocation. -/
def setupNode (reg : Registry) (nodes : List NodeHandle)
    (choose : List String → Option String) (node : NodeHandle)
    (node_name : String) : Except VBoxError SetupCall :=
  match resolveVm reg choose node node_name with
  | .error e => .error e
  | .ok vm =>
      let info := getInfo reg vm
      let linked_base := (assocGet info "linked_base").getD (.bool false)
      if linked_base.falsy && nodes.any (conflicts info) then
        .error .templateAlreadyInUse
      else
        .ok ⟨(assocGet info "vmname").getD (.str ""), linked_base,
             buildSettings info node⟩

/-- The module state: `self._settings`, `self._virtualbox_vms` and
`self._nodes`. -/
structure ModuleState where
  msettings : Record
  virtualbox_vms : Registry
  nodes : List NodeHandle
deriving DecidableEq, Repr

/-- `setupNode` as a transition on the module state: the method only
reads `self._virtualbox_vms` and `self._nodes` and assigns to no module
attribute (source lines 197–248), so the state component is returned
unchanged; the only effect is the returned `node.setup` call or the
raised error. -/
def setupNodeS (st : ModuleState) (choose : List String → Option String)
    (node : NodeHandle) (node_name : String) :
    ModuleState × Except VBoxError SetupCall :=
  (st, setupNode st.virtualbox_vms st.nodes choose node node_name)

/-- `dict.update` (source line 171): existing keys keep their position and
take the new value; keys new to the mapping are appended in their order. -/
def dictUpdate (s u : Record) : Record :=
  s.map (fun p => (p.1, ((assocGet u p.1).getD p.2))) ++
    u.filter (fun q => (assocGet s q.1).isNone)

/-- `VirtualBox.setSettings` (source lines 164–172): merge the update into
the module settings (`self._settings.update(settings)`) and save; the
second component is what `_saveSettings` hands to the persisted store,
namely the merged mapping itself. -/
def setSettings (st : ModuleState) (settings : Record) : ModuleState × Record :=
  let merged := dictUpdate st.msettings settings
  ({ st with msettings := merged }, merged)

/-- The data-model invariant on a registry entry: a template carries a
string `vmname` and a string `server` (both non-empty, as the load filter
guarantees), a boolean `linked_base`, and its key is `"server:vmname"`. -/
def WFEntry (p : String × Record) : Bool :=
  match assocGet p.2 "vmname", assocGet p.2 "server", assocGet p.2 "linked_base" with
  | some (.str vn), some (.str sv), some (.bool _) =>
      !(vn == "") && !(sv == "") && (p.1 == sv ++ ":" ++ vn)
  | _, _, _ => false

/-- The data-model invariant on the whole template registry. -/
def WFRegistry (reg : Registry) : Bool :=
  reg.all WFEntry

/-- The save-conformance invariant on one registry entry: its value's
fields are exactly the schema fields in schema order, each of its declared
type, its `vmname` and `server` are non-empty strings, and the entry's key
is `"server:vmname"`. -/
def conformant (p : String × Record) : Bool :=
  (p.2.map (·.1) == VBOX_VM_SETTINGS.map (·.1)) &&
    p.2.all (fun q => q.2.type == VBOX_VM_SETTING_TYPES q.1) &&
    (match assocGet p.2 "vmname", assocGet p.2 "server" with
     | some (.str vn), some (.str sv) =>
         !(vn == "") && !(sv == "") && (p.1 == sv ++ ":" ++ vn)
     | _, _ => false)

def winfoA : Record :=
  [("vmname", .str "vm1"), ("server", .str "local"), ("linked_base", .bool false)]

def winfoB : Record :=
  [("vmname", .str "vm2"), ("server", .str "remote1"), ("linked_base", .bool true)]

def wreg : Registry := [("local:vm1", winfoA), ("remote1:vm2", winfoB)]

def wnode : NodeHandle :=
  ⟨[("vmname", .str ""), ("adapters", .nat 1)], ⟨"127.0.0.1", true⟩⟩

def wother : NodeHandle := ⟨[("vmname", .str "vm1")], ⟨"127.0.0.1", true⟩⟩

def wchoose : List String → Option String := fun _ => none

theorem assocGet_append {α : Type} (l1 l2 : List (String × α)) (k : String) :
    assocGet (l1 ++ l2) k =
      match assocGet l1 k with
      | some v => some v
      | none => assocGet l2 k := by
  induction l1 with
  | nil => simp [assocGet]
  | cons p t ih => by_cases h : p.1 = k <;> simp [assocGet, h, ih]

theorem assocGet_isSome_iff {α : Type} (l : List (String × α)) (k : String) :
    (assocGet l k).isSome = true ↔ k ∈ l.map (·.1) := by
  induction l with
  | nil => simp [assocGet]
  | cons p t ih =>
      simp only [assocGet, List.map_cons, List.mem_cons]
      by_cases h : p.1 = k
      · simp [h]
      · rw [if_neg h, ih]
        constructor
        · exact fun hm => Or.inr hm
        · rintro (rfl | hm)
          · exact absurd rfl h
          · exact hm

theorem colonKey_ne_empty (a b : String) : a ++ ":" ++ b ≠ "" := by
  intro h
  have hlen := congrArg String.length h
  have h1 : (":" : String).length = 1 := rfl
  simp [String.length_append, h1] at hlen

theorem WFEntry_key (p : String × Record) (h : WFEntry p = true) : p.1 ≠ "" := by
  unfold WFEntry at h
  split at h
  · next vn sv b _ _ _ =>
      simp only [Bool.and_eq_true, beq_iff_eq, Bool.not_eq_true'] at h
      rw [h.2]
      exact colonKey_ne_empty _ _
  · simp at h

theorem byName_go_nomatch (n : String) (l : List (String × Record))
    (acc : Option String) (h : ∀ p ∈ l, nameMatches n p.2 = false) :
    l.foldl (fun acc p => if nameMatches n p.2 then some p.1 else acc) acc = acc := by
  induction l generalizing acc with
  | nil => rfl
  | cons p t ih =>
      have hp := h p (by simp)
      have hstep :
          List.foldl (fun acc p => if nameMatches n p.2 then some p.1 else acc)
            acc (p :: t) =
          List.foldl (fun acc p => if nameMatches n p.2 then some p.1 else acc)
            acc t := by
        rw [List.foldl_cons]
        congr 1
        simp [hp]
      rw [hstep]
      exact ih acc (fun q hq => h q (by simp [hq]))

theorem byName_eq_none (reg : Registry) (n : String)
    (h : ∀ p ∈ reg, nameMatches n p.2 = false) : byName reg n = none :=
  byName_go_nomatch n reg none h

theorem byName_of_filter_pair (reg : Registry) (n : String) (q : String × Record)
    (h : reg.filter (fun p => nameMatches n p.2) = [q]) : byName reg n = some q.1 := by
  induction reg with
  | nil => simp at h
  | cons p t ih =>
      rw [List.filter_cons] at h
      by_cases hm : nameMatches n p.2 = true
      · simp only [hm, if_true] at h
        rw [List.cons_eq_cons] at h
        obtain ⟨hpq, htf⟩ := h
        have hnom : ∀ r ∈ t, nameMatches n r.2 = false := by
          intro r hr
          have := List.filter_eq_nil_iff.mp htf r hr
          simpa using this
        have hstep : byName (p :: t) n =
            t.foldl (fun acc r => if nameMatches n r.2 then some r.1 else acc)
              (some p.1) := by
          unfold byName
          simp [List.foldl_cons, hm]
        rw [hstep, byName_go_nomatch n t (some p.1) hnom, hpq]
      · simp only [hm, if_false, Bool.false_eq_true] at h
        have := ih (by simpa using h)
        have hstep : byName (p :: t) n =
            t.foldl (fun acc r => if nameMatches n r.2 then some r.1 else acc)
              none := by
          unfold byName
          simp [List.foldl_cons, hm]
        rw [hstep]
        exact this

theorem selectedVms_eq_nil (reg : Registry) (node : NodeHandle)
    (h : ∀ p ∈ reg, serverMatches node p.2 = false) :
    selectedVms reg node = [] := by
  unfold selectedVms
  rw [List.filter_eq_nil_iff.mpr (by intro p hp; simp [h p hp])]
  rfl

/-- Claim C1: when `setupNode` resolves a template whose `linked_base` is
false and some registered node already uses the same `(vmname, server)`
pair (the source's conflict condition), `setupNode` raises
`TemplateAlreadyInUse` and no `node.setup` call is produced. -/
theorem claim_C1 (reg : Registry) (nodes : List NodeHandle)
    (choose : List String → Option String) (node : NodeHandle)
    (node_name vm : String)
    (hres : resolveVm reg choose node node_name = .ok vm)
    (hlb : assocGet (getInfo reg vm) "linked_base" = some (.bool false))
    (hconf : ∃ other ∈ nodes, conflicts (getInfo reg vm) other = true) :
    setupNode reg nodes choose node node_name = .error .templateAlreadyInUse := by
  have hany : nodes.any (conflicts (getInfo reg vm)) = true :=
    List.any_eq_true.mpr hconf
  simp [setupNode, hres, hlb, SettingValue.falsy, hany]

/-- Claim C2: a non-empty requested name matched by exactly one template
selects that template's key outright, so the server-filtering step (and
its `NoTemplateAvailable` and `SelectionCancelled` failures) is never
applied, whatever the template's server is. -/
theorem claim_C2 (reg : Registry) (nodes : List NodeHandle)
    (choose : List String → Option String) (node : NodeHandle)
    (node_name : String) (q : String × Record)
    (hwf : WFRegistry reg = true)
    (hn : node_name ≠ "")
    (hone : reg.filter (fun p => nameMatches node_name p.2) = [q]) :
    resolveVm reg choose node node_name = .ok q.1 ∧
    (∀ h, setupNode reg nodes choose node node_name ≠
        .error (.noTemplateAvailable h)) ∧
    setupNode reg nodes choose node node_name ≠ .error .selectionCancelled := by
  have hqmem : q ∈ reg := by
    apply List.mem_of_mem_filter (p := fun p => nameMatches node_name p.2)
    rw [hone]
    exact List.mem_singleton_self _
  have hkne : q.1 ≠ "" :=
    WFEntry_key q (List.all_eq_true.mp hwf q hqmem)
  have hby : byName reg node_name = some q.1 :=
    byName_of_filter_pair reg node_name q hone
  have hres : resolveVm reg choose node node_name = .ok q.1 := by
    unfold resolveVm
    simp [hn, hby, hkne]
  refine ⟨hres, ?_, ?_⟩
  · intro h
    simp only [setupNode, hres]
    split <;> simp
  · simp only [setupNode, hres]
    split <;> simp

/-- Claim C3: with no usable requested name and no template matching the
target node's server (neither its host nor the literal `"local"` for a
local server), `setupNode` raises `NoTemplateAvailable`, whose message
contains the node's host identifier. -/
theorem claim_C3 (reg : Registry) (nodes : List NodeHandle)
    (choose : List String → Option String) (node : NodeHandle)
    (node_name : String)
    (hname : node_name = "" ∨ ∀ p ∈ reg, nameMatches node_name p.2 = false)
    (hserver : ∀ p ∈ reg, serverMatches node p.2 = false) :
    setupNode reg nodes choose node node_name =
      .error (.noTemplateAvailable node.server.host) ∧
    ∃ pre, (VBoxError.noTemplateAvailable node.server.host).message =
      pre ++ node.server.host := by
  have hsel : selectedVms reg node = [] := selectedVms_eq_nil reg node hserver
  have hsr : serverResolve reg choose node =
      .error (.noTemplateAvailable node.server.host) := by
    unfold serverResolve
    rw [hsel]
  have hrv : resolveVm reg choose node node_name =
      .error (.noTemplateAvailable node.server.host) := by
    unfold resolveVm
    rcases hname with h | h
    · simp [h, hsr]
    · simp [byName_eq_none reg node_name h, hsr]
  exact ⟨by simp [setupNode, hrv], ⟨"No VirtualBox VM on server ", rfl⟩⟩

/-- Claim C4: when the resolved template's `linked_base` is true the
single-use scan over the node registry is skipped, and `node.setup` is
invoked with `linked_clone := true`, whatever the node registry holds. -/
theorem claim_C4 (reg : Registry) (nodes : List NodeHandle)
    (choose : List String → Option String) (node : NodeHandle)
    (node_name vm : String)
    (hres : resolveVm reg choose node node_name = .ok vm)
    (hlb : assocGet (getInfo reg vm) "linked_base" = some (.bool true)) :
    setupNode reg nodes choose node node_name =
      .ok ⟨(assocGet (getInfo reg vm) "vmname").getD (.str ""),
           .bool true, buildSettings (getInfo reg vm) node⟩ := by
  simp [setupNode, hres, hlb, SettingValue.falsy]

/-- Claim C9: a non-empty requested name that matches no template's
`vmname` does not fail the lookup; `setupNode` behaves exactly as if no
name had been requested. -/
theorem claim_C9 (reg : Registry) (nodes : List NodeHandle)
    (choose : List String → Option String) (node : NodeHandle)
    (node_name : String)
    (hn : node_name ≠ "")
    (hmiss : ∀ p ∈ reg, nameMatches node_name p.2 = false) :
    setupNode reg nodes choose node node_name =
      setupNode reg nodes choose node "" := by
  have h1 : resolveVm reg choose node node_name = resolveVm reg choose node "" := by
    unfold resolveVm
    simp [byName_eq_none reg node_name hmiss, hn]
  simp [setupNode, h1]

/-- Claim C1 witness: a concrete registry and a conflicting registered
node make `setupNode` raise `TemplateAlreadyInUse`. -/
theorem claim_C1_witness :
    setupNode wreg [wother] wchoose wnode "vm1" = .error .templateAlreadyInUse :=
  claim_C1 wreg [wother] wchoose wnode "vm1" "local:vm1" rfl (by decide)
    ⟨wother, by simp, by decide⟩

/-- Claim C2 witness: requesting `vm2`, hosted on another server than the
local target node, still resolves to the `remote1:vm2` template. -/
theorem claim_C2_witness :
    resolveVm wreg wchoose wnode "vm2" = .ok "remote1:vm2" ∧
    (∀ h, setupNode wreg [] wchoose wnode "vm2" ≠
        .error (.noTemplateAvailable h)) ∧
    setupNode wreg [] wchoose wnode "vm2" ≠ .error .selectionCancelled :=
  claim_C2 wreg [] wchoose wnode "vm2" ("remote1:vm2", winfoB) (by decide)
    (by decide) rfl

/-- Claim C3 witness: an empty registry yields `NoTemplateAvailable`
carrying the node's host. -/
theorem claim_C3_witness :
    setupNode [] [] wchoose wnode "" = .error (.noTemplateAvailable "127.0.0.1") ∧
    ∃ pre, (VBoxError.noTemplateAvailable "127.0.0.1").message =
      pre ++ "127.0.0.1" := by
  have h := claim_C3 [] [] wchoose wnode "" (Or.inl rfl) (by simp)
  exact h

/-- Claim C4 witness: the linked-base `vm2` template sets up even though a
registered node already uses it, with `linked_clone = true`. -/
theorem claim_C4_witness :
    setupNode wreg [⟨[("vmname", .str "vm2")], ⟨"remote1", false⟩⟩] wchoose wnode
        "vm2" =
      .ok ⟨.str "vm2", .bool true,
           buildSettings (getInfo wreg "remote1:vm2") wnode⟩ := by
  have h := claim_C4 wreg [⟨[("vmname", .str "vm2")], ⟨"remote1", false⟩⟩]
    wchoose wnode "vm2" "remote1:vm2" rfl (by decide)
  rw [h]
  rfl

/-- Claim C9 witness: requesting the unknown name `vm9` behaves exactly
like requesting no name. -/
theorem claim_C9_witness :
    setupNode wreg [] wchoose wnode "vm9" = setupNode wreg [] wchoose wnode "" :=
  claim_C9 wreg [] wchoose wnode "vm9" (by decide) (by decide)

theorem loadStep_eq (reg : Registry) (r : Record) :
    loadStep reg r =
      if (regGet reg (recordKey r)).isSome || !recordValid r then reg
      else reg ++ [(recordKey r, mkEntry r)] := by
  cases h1 : optFalsy (assocGet r "vmname") <;>
    cases h2 : optFalsy (assocGet r "server") <;>
      simp [loadStep, recordValid, h1, h2]

theorem load_go_get (l : List Record) (acc : Registry) (k : String) :
    regGet (l.foldl loadStep acc) k =
      match regGet acc k with
      | some v => some v
      | none =>
          (l.find? (fun r => recordValid r && (recordKey r == k))).map mkEntry := by
  induction l generalizing acc with
  | nil => cases h : regGet acc k <;> simp [h]
  | cons r t ih =>
      rw [List.foldl_cons, loadStep_eq]
      by_cases hv : recordValid r = true
      · by_cases hk : (regGet acc (recordKey r)).isSome = true
        · rw [if_pos (by simp [hk]), ih]
          by_cases hkk : recordKey r = k
          · subst hkk
            obtain ⟨v, hval⟩ := Option.isSome_iff_exists.mp hk
            rw [hval]
          · rw [List.find?_cons_of_neg _ (by simp [hkk])]
        · have hk' : (regGet acc (recordKey r)).isSome = false := by simpa using hk
          rw [if_neg (by simp [hv, hk']), ih]
          have hknone : regGet acc (recordKey r) = none :=
            Option.not_isSome_iff_eq_none.mp hk
          by_cases hkk : recordKey r = k
          · subst hkk
            have happ : regGet (acc ++ [(recordKey r, mkEntry r)]) (recordKey r) =
                some (mkEntry r) := by
              show assocGet (acc ++ [(recordKey r, mkEntry r)]) (recordKey r) =
                some (mkEntry r)
              rw [assocGet_append]
              have h2 : assocGet acc (recordKey r) = none := hknone
              rw [h2]
              simp [assocGet]
            rw [happ, hknone, List.find?_cons_of_pos _ (by simp [hv])]
            simp
          · have happ : regGet (acc ++ [(recordKey r, mkEntry r)]) k =
                regGet acc k := by
              show assocGet (acc ++ [(recordKey r, mkEntry r)]) k = assocGet acc k
              rw [assocGet_append]
              cases hacc : assocGet acc k <;> simp [assocGet, hkk]
            rw [happ, List.find?_cons_of_neg _ (by simp [hkk])]
      · have hv' : recordValid r = false := by simpa using hv
        rw [if_pos (by simp [hv']), ih,
          List.find?_cons_of_neg _ (by simp [hv'])]

theorem load_go_nodup (l : List Record) (acc : Registry)
    (h : (regKeys acc).Nodup) : (regKeys (l.foldl loadStep acc)).Nodup := by
  induction l generalizing acc with
  | nil => exact h
  | cons r t ih =>
      rw [List.foldl_cons, loadStep_eq]
      by_cases hc : ((regGet acc (recordKey r)).isSome || !recordValid r) = true
      · rw [if_pos hc]
        exact ih acc h
      · rw [if_neg hc]
        apply ih
        have hk : (regGet acc (recordKey r)).isSome = false := by
          rcases Bool.or_eq_true_iff.not.mp hc with hcc
          simp only [not_or] at hcc
          simpa using hcc.1
        have hmem : recordKey r ∉ acc.map (·.1) := by
          intro hm
          rw [← assocGet_isSome_iff acc (recordKey r)] at hm
          rw [regGet] at hk
          rw [hk] at hm
          exact Bool.false_ne_true hm
        simp only [regKeys, List.map_append, List.map_cons, List.map_nil]
        rw [List.nodup_append]
        refine ⟨h, List.nodup_singleton _, ?_⟩
        intro a ha hb
        have hb' : a = recordKey r := by simpa using hb
        subst hb'
        exact hmem ha

theorem load_go_filter (l : List Record) (acc : Registry) :
    l.foldl loadStep acc = (l.filter recordValid).foldl loadStep acc := by
  induction l generalizing acc with
  | nil => rfl
  | cons r t ih =>
      rw [List.filter_cons]
      by_cases hv : recordValid r = true
      · simp only [hv, if_true, List.foldl_cons]
        exact ih (loadStep acc r)
      · have hstep : loadStep acc r = acc := by
          rw [loadStep_eq, if_pos (by simp [hv])]
        simp only [hv, Bool.false_eq_true, if_false, List.foldl_cons, hstep]
        exact ih acc

theorem mkEntry_vmname (r : Record) :
    assocGet (mkEntry r) "vmname" =
      some (.str ((assocGet r "vmname").getD (.str "")).asStr) := rfl

theorem mkEntry_server (r : Record) :
    assocGet (mkEntry r) "server" =
      some (.str ((assocGet r "server").getD (.str "local")).asStr) := rfl

theorem toDigitsCore_ne_nil (b fuel n : Nat) (ds : List Char) (h : ds ≠ []) :
    Nat.toDigitsCore b fuel n ds ≠ [] := by
  induction fuel generalizing n ds with
  | zero => simpa [Nat.toDigitsCore] using h
  | succ f ih =>
      simp only [Nat.toDigitsCore]
      split
      · simp
      · exact ih _ _ (by simp)

theorem natRepr_ne_empty (n : Nat) : Nat.repr n ≠ "" := by
  unfold Nat.repr Nat.toDigits
  have hne : Nat.toDigitsCore 10 (n + 1) n [] ≠ [] := by
    simp only [Nat.toDigitsCore]
    split
    · simp
    · exact toDigitsCore_ne_nil _ _ _ _ (by simp)
  intro hs
  apply hne
  have := congrArg String.data hs
  simpa [List.asString] using this

theorem asStr_ne_empty (v : SettingValue) (h : v.falsy = false) :
    v.asStr ≠ "" := by
  cases v with
  | str s =>
      simp only [SettingValue.falsy, beq_eq_false_iff_ne, ne_eq] at h
      simpa [SettingValue.asStr] using h
  | bool b =>
      cases b with
      | false => simp [SettingValue.falsy] at h
      | true =>
          simp only [SettingValue.asStr]
          intro hc
          exact absurd (congrArg String.length hc) (by decide)
  | nat n =>
      simp only [SettingValue.asStr]
      exact natRepr_ne_empty n

/-- Claim C5: loading persisted records yields a registry with pairwise
distinct keys, and each key's entry comes from the first retained record
bearing that key: later records with an already-present `(server, vmname)`
key are skipped. -/
theorem claim_C5 (records : List Record) :
    (regKeys (_loadVirtualBoxVMs records)).Nodup ∧
    ∀ k, regGet (_loadVirtualBoxVMs records) k =
      (records.find? (fun r => recordValid r && (recordKey r == k))).map mkEntry := by
  constructor
  · exact load_go_nodup records [] (by simp [regKeys])
  · intro k
    have h := load_go_get records [] k
    simpa [regGet, assocGet] using h

/-- Claim C10: a record whose raw `vmname` or `server` read is missing or
falsy is never added (loading equals loading the valid records only), and
every loaded template carries non-empty `vmname` and `server` strings. -/
theorem claim_C10 (records : List Record) :
    _loadVirtualBoxVMs records =
      _loadVirtualBoxVMs (records.filter recordValid) ∧
    ∀ p, p ∈ _loadVirtualBoxVMs records →
      (∃ s, assocGet p.2 "vmname" = some (.str s) ∧ s ≠ "") ∧
      (∃ s, assocGet p.2 "server" = some (.str s) ∧ s ≠ "") := by
  constructor
  · exact load_go_filter records []
  · intro p hp
    have hgen : ∀ (l : List Record) (acc : Registry),
        (∀ q, q ∈ acc →
          (∃ s, assocGet q.2 "vmname" = some (.str s) ∧ s ≠ "") ∧
          (∃ s, assocGet q.2 "server" = some (.str s) ∧ s ≠ "")) →
        ∀ q, q ∈ l.foldl loadStep acc →
          (∃ s, assocGet q.2 "vmname" = some (.str s) ∧ s ≠ "") ∧
          (∃ s, assocGet q.2 "server" = some (.str s) ∧ s ≠ "") := by
      intro l
      induction l with
      | nil => intro acc hacc q hq; exact hacc q hq
      | cons r t ih =>
          intro acc hacc q hq
          rw [List.foldl_cons, loadStep_eq] at hq
          by_cases hc : ((regGet acc (recordKey r)).isSome || !recordValid r) = true
          · rw [if_pos hc] at hq
            exact ih acc hacc q hq
          · rw [if_neg hc] at hq
            have hv : recordValid r = true := by
              rcases Bool.or_eq_true_iff.not.mp hc with hcc
              simp only [not_or] at hcc
              simpa using hcc.2
            refine ih _ ?_ q hq
            intro q' hq'
            rcases List.mem_append.mp hq' with hmem | hmem
            · exact hacc q' hmem
            · have hq'' : q' = (recordKey r, mkEntry r) := by simpa using hmem
              subst hq''
              have hvm : optFalsy (assocGet r "vmname") = false := by
                revert hv
                cases h1 : optFalsy (assocGet r "vmname") <;>
                  simp [recordValid, h1]
              have hsv : optFalsy (assocGet r "server") = false := by
                revert hv
                cases h1 : optFalsy (assocGet r "server") <;>
                  simp [recordValid, h1]
              constructor
              · refine ⟨((assocGet r "vmname").getD (.str "")).asStr,
                  mkEntry_vmname r, ?_⟩
                cases hraw : assocGet r "vmname" with
                | none => rw [hraw] at hvm; simp [optFalsy] at hvm
                | some v =>
                    rw [hraw] at hvm
                    simp only [Option.getD_some]
                    exact asStr_ne_empty v (by simpa [optFalsy] using hvm)
              · refine ⟨((assocGet r "server").getD (.str "local")).asStr,
                  mkEntry_server r, ?_⟩
                cases hraw : assocGet r "server" with
                | none => rw [hraw] at hsv; simp [optFalsy] at hsv
                | some v =>
                    rw [hraw] at hsv
                    simp only [Option.getD_some]
                    exact asStr_ne_empty v (by simpa [optFalsy] using hsv)
    exact hgen records [] (by simp) p hp

/-- Claim C10 witness: a concrete load in which an invalid record is
dropped and the surviving template's fields are non-empty. -/
theorem claim_C10_witness :
    _loadVirtualBoxVMs [[("server", .str "local")], winfoA] =
      _loadVirtualBoxVMs
        ([[("server", .str "local")], winfoA].filter recordValid) ∧
    (∃ s, assocGet (mkEntry winfoA) "vmname" = some (.str s) ∧ s ≠ "") ∧
    (∃ s, assocGet (mkEntry winfoA) "server" = some (.str s) ∧ s ≠ "") := by
  have h := claim_C10 [[("server", .str "local")], winfoA]
  exact ⟨h.1, h.2 ("local:vm1", mkEntry winfoA) (by decide)⟩

theorem assocGet_map_overlay (s u : Record) (k : String) :
    assocGet (s.map (fun p => (p.1, (assocGet u p.1).getD p.2))) k =
      match assocGet s k with
      | some w => some ((assocGet u k).getD w)
      | none => none := by
  induction s with
  | nil => simp [assocGet]
  | cons p t ih =>
      by_cases h : p.1 = k
      · subst h
        simp [assocGet]

      · simp [assocGet, h, ih]

theorem assocGet_filter_new (s u : Record) (k : String) :
    assocGet (u.filter (fun q => (assocGet s q.1).isNone)) k =
      match assocGet s k with
      | some _ => none
      | none => assocGet u k := by
  induction u with
  | nil => cases h : assocGet s k <;> simp [assocGet, h]
  | cons q t ih =>
      rw [List.filter_cons]
      by_cases hq : q.1 = k
      · subst hq
        cases hs : assocGet s q.1 with
        | none =>
            simp only [hs, Option.isNone_none, if_true]
            simp [assocGet]
        | some w =>
            simp only [hs, Option.isNone_some, Bool.false_eq_true, if_false]
            have := ih
            rw [hs] at this
            simpa [assocGet] using this
      · by_cases hcond : (assocGet s q.1).isNone = true
        · simp only [hcond, if_true]
          have hget : assocGet (q :: t.filter (fun q => (assocGet s q.1).isNone)) k =
              assocGet (t.filter (fun q => (assocGet s q.1).isNone)) k := by
            simp [assocGet, hq]
          rw [hget, ih]
          cases h : assocGet s k <;> simp [assocGet, hq]
        · simp only [hcond, Bool.false_eq_true, if_false]
          rw [ih]
          cases h : assocGet s k <;> simp [assocGet, hq]

theorem dictUpdate_get (s u : Record) (k : String) :
    assocGet (dictUpdate s u) k =
      match assocGet u k with
      | some v => some v
      | none => assocGet s k := by
  unfold dictUpdate
  rw [assocGet_append, assocGet_map_overlay, assocGet_filter_new]
  cases hs : assocGet s k with
  | some w => cases hu : assocGet u k <;> simp
  | none => cases hu : assocGet u k <;> simp

/-- Claim C7: `setSettings` overlays the update onto the current module
settings — updated keys take the new value, all other keys keep their old
value — and the saved mapping is exactly the merged one. -/
theorem claim_C7 (st : ModuleState) (u : Record) (k : String) :
    assocGet (setSettings st u).1.msettings k =
      (match assocGet u k with
       | some v => some v
       | none => assocGet st.msettings k) ∧
    (setSettings st u).2 = (setSettings st u).1.msettings :=
  ⟨dictUpdate_get st.msettings u k, rfl⟩

/-- Claim C8: whenever `setupNode` fails, the module state (settings,
template registry, node registry) is returned unchanged and no
`node.setup` call is produced. -/
theorem claim_C8 (st : ModuleState) (choose : List String → Option String)
    (node : NodeHandle) (node_name : String) (e : VBoxError)
    (herr : (setupNodeS st choose node node_name).2 = .error e) :
    (setupNodeS st choose node node_name).1 = st ∧
    ∀ call, (setupNodeS st choose node node_name).2 ≠ .ok call := by
  refine ⟨rfl, ?_⟩
  intro call hc
  rw [herr] at hc
  exact Except.noConfusion hc

/-- Claim C8 witness: the failing call on an empty registry leaves the
state untouched and produces no setup call. -/
theorem claim_C8_witness :
    (setupNodeS ⟨[], [], []⟩ wchoose wnode "").1 = ⟨[], [], []⟩ ∧
    ∀ call, (setupNodeS ⟨[], [], []⟩ wchoose wnode "").2 ≠ .ok call :=
  claim_C8 ⟨[], [], []⟩ wchoose wnode "" (.noTemplateAvailable "127.0.0.1") rfl

theorem convert_id (t : SettingType) (v : SettingValue) (h : v.type = t) :
    convert t v = v := by
  subst h
  cases v <;> rfl

theorem conformant_fields (p : String × Record) (h : conformant p = true) :
    ∃ vn sv, assocGet p.2 "vmname" = some (.str vn) ∧
      assocGet p.2 "server" = some (.str sv) ∧
      vn ≠ "" ∧ sv ≠ "" ∧ p.1 = sv ++ ":" ++ vn := by
  unfold conformant at h
  simp only [Bool.and_eq_true] at h
  obtain ⟨-, h3⟩ := h
  split at h3
  · next vn sv heq1 heq2 =>
      refine ⟨vn, sv, heq1, heq2, ?_⟩
      simp only [Bool.and_eq_true, Bool.not_eq_true', beq_eq_false_iff_ne,
        ne_eq, beq_iff_eq] at h3
      exact ⟨h3.1.1, h3.1.2, h3.2⟩
  · simp at h3

theorem conformant_shape (p : String × Record) (h : conformant p = true) :
    p.2.map (·.1) = VBOX_VM_SETTINGS.map (·.1) := by
  unfold conformant at h
  simp only [Bool.and_eq_true] at h
  exact beq_iff_eq.mp h.1.1

theorem conformant_types (p : String × Record) (h : conformant p = true) :
    ∀ q ∈ p.2, q.2.type = VBOX_VM_SETTING_TYPES q.1 := by
  unfold conformant at h
  simp only [Bool.and_eq_true] at h
  intro q hq
  have := List.all_eq_true.mp h.1.2 q hq
  exact beq_iff_eq.mp this

theorem schema_overlay_id (sch : List (String × SettingValue)) (info : Record)
    (hshape : info.map (·.1) = sch.map (·.1))
    (htypes : ∀ q ∈ info, q.2.type = VBOX_VM_SETTING_TYPES q.1)
    (hnodup : (sch.map (·.1)).Nodup) :
    sch.map (fun p => (p.1, convert (VBOX_VM_SETTING_TYPES p.1)
      ((assocGet info p.1).getD p.2))) = info := by
  induction sch generalizing info with
  | nil =>
      cases info with
      | nil => rfl
      | cons q t => simp at hshape
  | cons p st ih =>
      cases info with
      | nil => simp at hshape
      | cons q it =>
          simp only [List.map_cons, List.cons_eq_cons] at hshape
          obtain ⟨hq1, hrest⟩ := hshape
          simp only [List.map_cons, List.nodup_cons] at hnodup
          simp only [List.map_cons, List.cons_eq_cons]
          constructor
          · have hhit : assocGet (q :: it) p.1 = some q.2 := by
              simp [assocGet, hq1]
            rw [hhit]
            simp only [Option.getD_some]
            rw [convert_id _ _ (hq1 ▸ htypes q (by simp))]
            rw [← hq1]
          · have htail : st.map (fun p' => (p'.1, convert (VBOX_VM_SETTING_TYPES p'.1)
                ((assocGet (q :: it) p'.1).getD p'.2))) =
                st.map (fun p' => (p'.1, convert (VBOX_VM_SETTING_TYPES p'.1)
                  ((assocGet it p'.1).getD p'.2))) := by
              apply List.map_congr_left
              intro p' hp'
              have hne : ¬q.1 = p'.1 := by
                rw [hq1]
                intro hcontra
                apply hnodup.1
                rw [hcontra]
                exact List.mem_map_of_mem _ hp'
              simp [assocGet, hne]
            rw [htail]
            exact ih it hrest (fun q' hq' => htypes q' (by simp [hq'])) hnodup.2

theorem mkEntry_id_of_conformant (p : String × Record) (h : conformant p = true) :
    mkEntry p.2 = p.2 :=
  schema_overlay_id VBOX_VM_SETTINGS p.2 (conformant_shape p h)
    (conformant_types p h) (by decide)

theorem load_save_go (r : Registry) (acc : Registry)
    (hnd : (regKeys acc ++ regKeys r).Nodup)
    (hc : ∀ p ∈ r, conformant p = true) :
    (r.map (·.2)).foldl loadStep acc = acc ++ r := by
  induction r generalizing acc with
  | nil => simp
  | cons p t ih =>
      rw [List.map_cons, List.foldl_cons]
      have hcp := hc p (by simp)
      obtain ⟨vn, sv, hvm, hsv, hvn, hsvne, hkeq⟩ := conformant_fields p hcp
      have hkey : recordKey p.2 = p.1 := by
        rw [recordKey, hvm, hsv, hkeq]
        rfl
      have hvalid : recordValid p.2 = true := by
        rw [recordValid, hvm, hsv]
        simp [optFalsy, SettingValue.falsy, hvn, hsvne]
      have hpmem : p.1 ∉ regKeys acc := by
        intro hmem
        have hdisj := (List.nodup_append.mp hnd).2.2
        exact hdisj hmem (by simp [regKeys])
      have habsent : (regGet acc (recordKey p.2)).isSome = false := by
        rw [hkey]
        cases hg : (regGet acc p.1).isSome
        · rfl
        · exact absurd ((assocGet_isSome_iff acc p.1).mp hg)
            (by simpa [regKeys] using hpmem)
      have hstep : loadStep acc p.2 = acc ++ [(p.1, mkEntry p.2)] := by
        rw [loadStep_eq, if_neg (by simp [habsent, hvalid]), hkey]
      rw [hstep, mkEntry_id_of_conformant p hcp]
      have hpair : acc ++ [(p.1, p.2)] = acc ++ [p] := by simp
      rw [hpair]
      have hnd' : (regKeys (acc ++ [p]) ++ regKeys t).Nodup := by
        simp only [regKeys, List.map_append, List.map_cons, List.map_nil] at hnd ⊢
        simpa [List.append_assoc] using hnd
      rw [ih (acc ++ [p]) hnd' (fun q hq => hc q (by simp [hq]))]
      simp

/-- Claim C6 counterexample: an entry whose value lacks the schema fields
is dropped by the reload, so saving then loading does not reproduce the
registry passed to `setVirtualBoxVMs` — the claim fails for arbitrary
registries. -/
theorem claim_C6_counterexample :
    regKeys (_loadVirtualBoxVMs (setVirtualBoxVMs [] [("a:b", [])]).2) ≠
      regKeys [("a:b", [])] := by decide

/-- Claim C6 (amended): for a registry whose entries are save-conformant —
each value holds exactly the schema fields with values of their declared
types, non-empty `vmname` and `server`, and key `"server:vmname"` — with
pairwise distinct keys, saving via `setVirtualBoxVMs` (a full overwrite of
any previous store) and reloading reproduces the registry exactly: same
keys and same field values. -/
theorem claim_C6_amended (prev : List Record) (r : Registry)
    (hnd : (regKeys r).Nodup)
    (hc : ∀ p ∈ r, conformant p = true) :
    _loadVirtualBoxVMs (setVirtualBoxVMs prev r).2 = r := by
  show (r.map (·.2)).foldl loadStep [] = r
  have h := load_save_go r [] (by simpa [regKeys] using hnd) hc
  simpa using h

/-- Claim C6 witness: a concrete schema-shaped registry survives the
save-then-load round trip unchanged, whatever the previous store held. -/
theorem claim_C6_witness :
    _loadVirtualBoxVMs
        (setVirtualBoxVMs [[("vmname", .str "stale")]]
          [("local:vm1", mkEntry winfoA)]).2 =
      [("local:vm1", mkEntry winfoA)] :=
  claim_C6_amended [[("vmname", .str "stale")]] [("local:vm1", mkEntry winfoA)]
    (by decide) (by decide)

end GNS3VBox
